import Mathlib

/-!
Verification of the job dispatch queue of the hybrid CI/CD control plane.

Shallow embedding of `src/backend/src/db/queue_models.py` and
`src/backend/src/db/queue_store.py` (class `InMemoryJobQueueStore`), plus the
enqueue validation of `src/backend/src/components/links/queue_links.py`
(class `EnqueueJobLink`).

Modelling conventions:
- `datetime` values are modelled as `Int` (seconds); each engine operation
  receives a single `now : Int` standing for the `datetime.utcnow()` calls
  it performs.
- The Python `dict` `self._jobs` is an insertion-ordered association list
  `List (String × QueuedJob)`; `updateJob` replaces the value in place at an
  existing key and appends at the end otherwise, matching dict assignment.
- `self._queue_by_status` (a `defaultdict(list)` keyed by the six statuses)
  is modelled as six explicit id lists; `self._queue_by_pool` as an
  association list with `[]` as the default value.
- Python's `list.remove(x)` removes the first occurrence and raises
  `ValueError` when `x` is absent.  The guarded removals in `start_job` and
  `complete_job` (`if x in l: l.remove(x)`) are exactly `List.erase`.  The
  unguarded removals in `claim_job` and `requeue_expired_leases` are also
  modelled by `List.erase`; they can only diverge from Python (which would
  raise) on states where a QUEUED (resp. CLAIMED) record's id is missing
  from the corresponding status index, which the index hypotheses of the
  theorems below rule out.  In `retry_failed_job` the removal from the
  FAILED index can genuinely fail on reachable states, so there it is
  modelled faithfully with a membership check and a `valueError` outcome.
- `claim_job` sorts candidates by the key `(-priority_order, queued_at)`
  with Python's stable `list.sort` and takes element `[0]`; this selects the
  first (in pool-index order) candidate whose key is minimal, which is what
  `selectFirstMin` computes by a left fold.
- Python floats in `get_queue_stats` are modelled as `Rat`; the `int(n * 0.95)`
  index is `19 * n / 20` in `Nat` arithmetic.
-/

namespace HybridCI

/-- `JobQueueStatus` from `queue_models.py`. -/
inductive JobQueueStatus where
  | queued
  | claimed
  | running
  | completed
  | failed
  | dead_lettered
deriving DecidableEq, Repr

/-- `JobQueuePriority` from `queue_models.py`. -/
inductive JobQueuePriority where
  | low
  | normal
  | high
  | critical
deriving DecidableEq, Repr

/-- Dataclass `QueuedJob` from `queue_models.py`.  The `datetime` default
factories (`datetime.utcnow`) are modelled by the default `0`. -/
structure QueuedJob where
  job_id : String
  job_type : String
  pool_name : String
  priority : JobQueuePriority := .normal
  status : JobQueueStatus := .queued
  git_repo : String := ""
  git_ref : String := ""
  git_commit_sha : String := ""
  git_commit_message : String := ""
  git_author : String := ""
  tags : List (String × String) := []
  queued_at : Int := 0
  claimed_at : Option Int := none
  started_at : Option Int := none
  completed_at : Option Int := none
  claimed_by_agent : Option String := none
  claimed_lease_expires_at : Option Int := none
  attempt : Int := 1
  max_attempts : Int := 3
  error_message : Option String := none
  exit_code : Option Int := none
  duration_seconds : Option Int := none
  timeout_seconds : Int := 3600
  created_at : Int := 0
  updated_at : Int := 0
deriving DecidableEq, Repr

/-- `QueuedJob.is_lease_expired`: `datetime.utcnow() > self.claimed_lease_expires_at`
(`False` when the lease field is unset). -/
def QueuedJob.is_lease_expired (j : QueuedJob) (now : Int) : Bool :=
  match j.claimed_lease_expires_at with
  | none => false
  | some e => now > e

/-- `QueuedJob.can_retry`: `self.attempt < self.max_attempts`. -/
def QueuedJob.can_retry (j : QueuedJob) : Bool :=
  j.attempt < j.max_attempts

/-- The state of `InMemoryJobQueueStore`: `_jobs`, the six per-status id lists
of `_queue_by_status`, and `_queue_by_pool`. -/
structure QueueState where
  jobs : List (String × QueuedJob) := []
  queuedIds : List String := []
  claimedIds : List String := []
  runningIds : List String := []
  completedIds : List String := []
  failedIds : List String := []
  deadLetteredIds : List String := []
  byPool : List (String × List String) := []
deriving DecidableEq, Repr

/-- A freshly constructed `InMemoryJobQueueStore`. -/
def emptyQueue : QueueState := {}

/-- First-match lookup in the jobs map (`self._jobs.get(job_id)`). -/
def lookupJob : List (String × QueuedJob) → String → Option QueuedJob
  | [], _ => none
  | (k, v) :: rest, key => if k = key then some v else lookupJob rest key

/-- Dict assignment `self._jobs[key] = v`: replace in place at an existing
key, append otherwise. -/
def updateJob : List (String × QueuedJob) → String → QueuedJob → List (String × QueuedJob)
  | [], key, v => [(key, v)]
  | (k, v₀) :: rest, key, v =>
    if k = key then (key, v) :: rest else (k, v₀) :: updateJob rest key v

/-- `self._queue_by_pool.get(pool_name, [])`. -/
def lookupPool : List (String × List String) → String → List String
  | [], _ => []
  | (q, ids) :: rest, p => if q = p then ids else lookupPool rest p

/-- The id list the pool index currently holds for `pool_name`. -/
def poolIds (s : QueueState) (pool_name : String) : List String :=
  lookupPool s.byPool pool_name

/-- `self._queue_by_pool[pool_name].append(id)` on the `defaultdict`. -/
def poolAppend : List (String × List String) → String → String → List (String × List String)
  | [], p, id => [(p, [id])]
  | (q, ids) :: rest, p, id =>
    if q = p then (q, ids ++ [id]) :: rest else (q, ids) :: poolAppend rest p id

/-- `InMemoryJobQueueStore.enqueue_job`: forces `status = QUEUED` and
`queued_at = now`, stores the record under its `job_id` (overwriting any
existing record with that id), and appends the id to the QUEUED status
index and to the pool index. -/
def enqueue_job (s : QueueState) (job : QueuedJob) (now : Int) : QueueState × QueuedJob :=
  let job' := { job with status := .queued, queued_at := now }
  ({ s with
      jobs := updateJob s.jobs job.job_id job'
      queuedIds := s.queuedIds ++ [job.job_id]
      byPool := poolAppend s.byPool job.pool_name job.job_id },
   job')

/-- The numeric priority used as a sort key in `claim_job`
(`priority_order.get(j.priority, 0)`; the default 0 is unreachable since
`get` is applied to the four enum members). -/
def priorityOrder : JobQueuePriority → Int
  | .critical => 4
  | .high => 3
  | .normal => 2
  | .low => 1

/-- Strict comparison of the sort keys `(-priority_order, queued_at)` used by
`claim_job`: `j` sorts strictly before `k`. -/
def claimKeyLtP (j k : QueuedJob) : Prop :=
  priorityOrder k.priority < priorityOrder j.priority ∨
    (priorityOrder j.priority = priorityOrder k.priority ∧ j.queued_at < k.queued_at)

instance (j k : QueuedJob) : Decidable (claimKeyLtP j k) := by
  unfold claimKeyLtP
  infer_instance

/-- Boolean form of `claimKeyLtP`. -/
def claimKeyLt (j k : QueuedJob) : Bool :=
  decide (claimKeyLtP j k)

/-- `queued_jobs.sort(key=...)` followed by `queued_jobs[0]`: the first
element (in list order) whose sort key is minimal.  The entries carry the
dict key the record was found under. -/
def selectFirstMin : List (String × QueuedJob) → Option (String × QueuedJob)
  | [] => none
  | c :: rest =>
    some (rest.foldl (fun cur x => if claimKeyLt x.2 cur.2 then x else cur) c)

/-- The QUEUED candidates `claim_job` enumerates: ids listed under the pool,
restricted to records whose status is QUEUED. -/
def claimCandidates (s : QueueState) (pool_name : String) : List (String × QueuedJob) :=
  (poolIds s pool_name).filterMap fun jid =>
    match lookupJob s.jobs jid with
    | some j => if j.status = .queued then some (jid, j) else none
    | none => none

/-- The field mutation `claim_job` applies to the selected record. -/
def claimRec (j : QueuedJob) (agent_id : String) (lease_duration_seconds now : Int) : QueuedJob :=
  { j with
      status := .claimed
      claimed_by_agent := some agent_id
      claimed_at := some now
      claimed_lease_expires_at := some (now + lease_duration_seconds)
      updated_at := now }

/-- `InMemoryJobQueueStore.claim_job`. -/
def claim_job (s : QueueState) (agent_id pool_name : String)
    (lease_duration_seconds now : Int) : QueueState × Option QueuedJob :=
  match selectFirstMin (claimCandidates s pool_name) with
  | none => (s, none)
  | some (jid, job) =>
    let job' := claimRec job agent_id lease_duration_seconds now
    ({ s with
        jobs := updateJob s.jobs jid job'
        queuedIds := s.queuedIds.erase job.job_id
        claimedIds := s.claimedIds ++ [job.job_id] },
     some job')

/-- The field mutation `start_job` applies. -/
def startRec (j : QueuedJob) (now : Int) : QueuedJob :=
  { j with status := .running, started_at := some now, updated_at := now }

/-- `InMemoryJobQueueStore.start_job`: requires only that the job exists and
that `claimed_by_agent == agent_id`; the current status is not examined. -/
def start_job (s : QueueState) (job_id agent_id : String) (now : Int) :
    QueueState × Option QueuedJob :=
  match lookupJob s.jobs job_id with
  | none => (s, none)
  | some job =>
    if job.claimed_by_agent = some agent_id then
      let job' := startRec job now
      ({ s with
          jobs := updateJob s.jobs job_id job'
          claimedIds := s.claimedIds.erase job.job_id
          runningIds := s.runningIds ++ [job.job_id] },
       some job')
    else (s, none)

/-- The field mutation `complete_job` applies. -/
def completeRec (j : QueuedJob) (exit_code duration_seconds : Int)
    (error_message : Option String) (now : Int) : QueuedJob :=
  { j with
      status := if exit_code = 0 then .completed else .failed
      exit_code := some exit_code
      duration_seconds := some duration_seconds
      error_message := error_message
      completed_at := some now
      updated_at := now }

/-- Append an id to the status index list for `st`
(`self._queue_by_status[st].append(id)`). -/
def pushStatus (s : QueueState) (st : JobQueueStatus) (id : String) : QueueState :=
  match st with
  | .queued => { s with queuedIds := s.queuedIds ++ [id] }
  | .claimed => { s with claimedIds := s.claimedIds ++ [id] }
  | .running => { s with runningIds := s.runningIds ++ [id] }
  | .completed => { s with completedIds := s.completedIds ++ [id] }
  | .failed => { s with failedIds := s.failedIds ++ [id] }
  | .dead_lettered => { s with deadLetteredIds := s.deadLetteredIds ++ [id] }

/-- `InMemoryJobQueueStore.complete_job`: no ownership or status check; sets
the execution fields and moves to COMPLETED on `exit_code == 0`, FAILED
otherwise.  Returns `none` and leaves the state untouched when the id is
unknown. -/
def complete_job (s : QueueState) (job_id : String) (exit_code duration_seconds : Int)
    (error_message : Option String) (now : Int) : QueueState × Option QueuedJob :=
  match lookupJob s.jobs job_id with
  | none => (s, none)
  | some job =>
    let job' := completeRec job exit_code duration_seconds error_message now
    let s₁ := { s with
        jobs := updateJob s.jobs job_id job'
        runningIds := s.runningIds.erase job.job_id }
    (pushStatus s₁ job'.status job.job_id, some job')

/-- The per-record condition of the maintenance sweep:
`job.status == CLAIMED and job.is_lease_expired()`. -/
def shouldRequeue (j : QueuedJob) (now : Int) : Bool :=
  j.status = .claimed && j.is_lease_expired now

/-- The field mutation `requeue_expired_leases` applies to a reclaimed
record.  Note that `claimed_at` is NOT cleared. -/
def requeueRec (j : QueuedJob) (now : Int) : QueuedJob :=
  { j with
      status := .queued
      claimed_by_agent := none
      claimed_lease_expires_at := none
      updated_at := now }

/-- `InMemoryJobQueueStore.requeue_expired_leases`: scans all records in
insertion order; each CLAIMED record with an expired lease is re-queued,
removed from the CLAIMED index and appended to the QUEUED index.  Returns
the number reclaimed. -/
def requeue_expired_leases (s : QueueState) (now : Int) : QueueState × Nat :=
  let reclaimed := ((s.jobs.filter fun pr => shouldRequeue pr.2 now).map fun pr => pr.2.job_id)
  ({ s with
      jobs := s.jobs.map fun pr =>
        (pr.1, if shouldRequeue pr.2 now then requeueRec pr.2 now else pr.2)
      claimedIds := reclaimed.foldl (fun l id => l.erase id) s.claimedIds
      queuedIds := s.queuedIds ++ reclaimed },
   reclaimed.length)

/-- The field mutation of the retry branch of `retry_failed_job`: increments
`attempt`, clears all claim and execution fields, re-queues. -/
def retryRec (j : QueuedJob) (now : Int) : QueuedJob :=
  { j with
      attempt := j.attempt + 1
      status := .queued
      claimed_by_agent := none
      claimed_at := none
      claimed_lease_expires_at := none
      started_at := none
      completed_at := none
      exit_code := none
      duration_seconds := none
      error_message := none
      updated_at := now }

/-- Outcome of `retry_failed_job`: a normal return (the Python method returns
the re-queued job or `None`), or an uncaught `ValueError` raised by
`self._queue_by_status[FAILED].remove(...)` when the id is absent from the
FAILED index (reachable, e.g. by retrying a COMPLETED job that still has
attempts left).  In the `valueError` cases the record mutations made before
the raising `remove` call have already been applied. -/
inductive RetryOutcome where
  | returned (r : Option QueuedJob)
  | valueError
deriving DecidableEq, Repr

/-- `InMemoryJobQueueStore.retry_failed_job`. -/
def retry_failed_job (s : QueueState) (job_id : String) (now : Int) :
    QueueState × RetryOutcome :=
  match lookupJob s.jobs job_id with
  | none => (s, .returned none)
  | some job =>
    if job.can_retry then
      let job' := retryRec job now
      let jobs' := updateJob s.jobs job_id job'
      if job.job_id ∈ s.failedIds then
        ({ s with
            jobs := jobs'
            failedIds := s.failedIds.erase job.job_id
            queuedIds := s.queuedIds ++ [job.job_id] },
         .returned (some job'))
      else
        ({ s with jobs := jobs' }, .valueError)
    else
      if job.status = .failed then
        let job' := { job with status := JobQueueStatus.dead_lettered }
        let jobs' := updateJob s.jobs job_id job'
        if job.job_id ∈ s.failedIds then
          ({ s with
              jobs := jobs'
              failedIds := s.failedIds.erase job.job_id
              deadLetteredIds := s.deadLetteredIds ++ [job.job_id] },
           .returned none)
        else
          ({ s with jobs := jobs' }, .valueError)
      else (s, .returned none)

/-- Dataclass `QueueStats` from `queue_models.py` (floats as `Rat`). -/
structure QueueStats where
  total_queued : Nat
  total_claimed : Nat
  total_running : Nat
  total_completed : Nat
  total_failed : Nat
  total_dead_lettered : Nat
  avg_queue_wait_seconds : Rat
  avg_execution_seconds : Rat
  failure_rate : Rat
  p95_queue_wait : Rat
deriving DecidableEq, Repr

/-- `(j.claimed_at - j.queued_at).total_seconds() for j in l if j.claimed_at`. -/
def waitTimes (l : List QueuedJob) : List Rat :=
  l.filterMap fun j => j.claimed_at.map fun c => ((c - j.queued_at : Int) : Rat)

/-- `j.duration_seconds or 0 for j in l if j.duration_seconds` (a duration of
`0` is falsy in Python and is filtered out). -/
def executionTimes (l : List QueuedJob) : List Rat :=
  l.filterMap fun j =>
    match j.duration_seconds with
    | some d => if d = 0 then none else some ((d : Int) : Rat)
    | none => none

/-- `sum(l) / len(l)` guarded by non-emptiness, else `0.0`. -/
def listMean (l : List Rat) : Rat :=
  if l.isEmpty then 0 else l.sum / (l.length : Rat)

/-- Ascending insertion used to model Python's `sorted`. -/
def insertAsc (x : Rat) : List Rat → List Rat
  | [] => [x]
  | y :: ys => if x ≤ y then x :: y :: ys else y :: insertAsc x ys

/-- Python's `sorted` on a list of numbers. -/
def sortAsc (l : List Rat) : List Rat :=
  l.foldr insertAsc []

/-- `InMemoryJobQueueStore.get_queue_stats`: counts come from the status index
lists; the timing metrics are computed over `completed_jobs + failed_jobs`
only (records looked up from the COMPLETED and FAILED index lists — jobs in
the DEAD_LETTERED list are not included); `failure_rate` divides by
completed + failed + dead-lettered. -/
def get_queue_stats (s : QueueState) : QueueStats :=
  let queued := s.queuedIds.length
  let claimed := s.claimedIds.length
  let running := s.runningIds.length
  let completed := s.completedIds.length
  let failed := s.failedIds.length
  let dead_lettered := s.deadLetteredIds.length
  let completed_jobs := s.completedIds.filterMap fun jid => lookupJob s.jobs jid
  let failed_jobs := s.failedIds.filterMap fun jid => lookupJob s.jobs jid
  let all_finished := completed_jobs ++ failed_jobs
  let avg_queue_wait := listMean (waitTimes all_finished)
  let avg_execution := listMean (executionTimes all_finished)
  let total_finished := completed + failed + dead_lettered
  let failure_rate : Rat :=
    if total_finished = 0 then 0
    else ((failed + dead_lettered : Nat) : Rat) / ((total_finished : Nat) : Rat)
  let ws := sortAsc (waitTimes all_finished)
  let p95 :=
    if ws.isEmpty then 0
    else ws.getD (min (19 * ws.length / 20) (ws.length - 1)) 0
  { total_queued := queued
    total_claimed := claimed
    total_running := running
    total_completed := completed
    total_failed := failed
    total_dead_lettered := dead_lettered
    avg_queue_wait_seconds := avg_queue_wait
    avg_execution_seconds := avg_execution
    failure_rate := failure_rate
    p95_queue_wait := p95 }

/-- The jobs in a finished state, following the spec's words for §3 Queue
Statistics: "computed only over jobs that have reached a finished state
(COMPLETED, FAILED, or DEAD_LETTERED)".  Used to compare the code's metric
scope against the spec's. -/
def specFinishedJobs (s : QueueState) : List QueuedJob :=
  s.jobs.filterMap fun pr =>
    if pr.2.status = .completed ∨ pr.2.status = .failed ∨ pr.2.status = .dead_lettered
    then some pr.2 else none

/-- Mean queue-wait over the spec's finished-job set (COMPLETED, FAILED and
DEAD_LETTERED), following the spec's words. -/
def specMeanQueueWait (s : QueueState) : Rat :=
  listMean (waitTimes (specFinishedJobs s))

/-- The caller-supplied context of `EnqueueJobLink.call` (`ctx.get(...)`
returning `None` for absent keys). -/
structure EnqueueCtx where
  job_id : Option String := none
  job_type : Option String := none
  pool_name : Option String := none
  priority : Option String := none
  git_repo : Option String := none
  git_ref : Option String := none
  git_commit_sha : Option String := none
  git_commit_message : Option String := none
  git_author : Option String := none
  tags : Option (List (String × String)) := none
  timeout_seconds : Option Int := none
  max_attempts : Option Int := none
deriving DecidableEq, Repr

/-- Python string falsiness: `None` and `""` are falsy. -/
def falsyStr : Option String → Bool
  | none => true
  | some s => s = ""

/-- `x or d` for an optional string. -/
def orDefaultStr (o : Option String) (d : String) : String :=
  match o with
  | none => d
  | some s => if s = "" then d else s

/-- `x or d` for an optional int (`0` is falsy in Python). -/
def orDefaultInt (o : Option Int) (d : Int) : Int :=
  match o with
  | none => d
  | some t => if t = 0 then d else t

/-- `JobQueuePriority(priority_str)`; `None` models the raised `ValueError`. -/
def parsePriority : String → Option JobQueuePriority
  | "low" => some .low
  | "normal" => some .normal
  | "high" => some .high
  | "critical" => some .critical
  | _ => none

/-- Result of `EnqueueJobLink.call`: an error inserted into the context, or
the enqueued job. -/
inductive EnqueueLinkResult where
  | error (msg : String)
  | ok (job : QueuedJob)
deriving DecidableEq, Repr

/-- `EnqueueJobLink.call` from `queue_links.py`: validates that `job_id`,
`job_type` and `pool_name` are all truthy, reporting a validation error
without touching the store otherwise; then builds the `QueuedJob` (invalid
priority strings fall back to NORMAL) and enqueues it. -/
def enqueueJobLink (store : QueueState) (ctx : EnqueueCtx) (now : Int) :
    QueueState × EnqueueLinkResult :=
  if falsyStr ctx.job_id || falsyStr ctx.job_type || falsyStr ctx.pool_name then
    (store, .error "Missing required fields: job_id, job_type, pool_name")
  else
    let priority_str := orDefaultStr ctx.priority "normal"
    let priority := (parsePriority priority_str).getD .normal
    let job : QueuedJob :=
      { job_id := ctx.job_id.getD ""
        job_type := ctx.job_type.getD ""
        pool_name := ctx.pool_name.getD ""
        priority := priority
        status := .queued
        git_repo := orDefaultStr ctx.git_repo ""
        git_ref := orDefaultStr ctx.git_ref ""
        git_commit_sha := orDefaultStr ctx.git_commit_sha ""
        git_commit_message := orDefaultStr ctx.git_commit_message ""
        git_author := orDefaultStr ctx.git_author ""
        tags := ctx.tags.getD []
        timeout_seconds := orDefaultInt ctx.timeout_seconds 3600
        max_attempts := orDefaultInt ctx.max_attempts 3
        queued_at := now
        created_at := now
        updated_at := now }
    let res := enqueue_job store job now
    (res.1, .ok res.2)

/-! ### Index-consistency predicates

These hold on every state reachable via the Python store's own operations
without index drift: the dict key always equals the record's `job_id`, dict
keys are unique (automatic for a Python dict), a job is indexed under the
pool it carries unless its id was re-enqueued into a different pool, and a
QUEUED/CLAIMED record's id is listed in the corresponding status index
(so that the unguarded `list.remove` calls cannot raise). -/

/-- Every stored record's `job_id` equals its dict key. -/
def keyConsistent (s : QueueState) : Prop :=
  ∀ pr ∈ s.jobs, pr.2.job_id = pr.1

instance (s : QueueState) : Decidable (keyConsistent s) := by
  unfold keyConsistent
  infer_instance

/-- The dict keys are pairwise distinct (automatic for a Python dict). -/
def keysNodup (s : QueueState) : Prop :=
  (s.jobs.map Prod.fst).Nodup

instance (s : QueueState) : Decidable (keysNodup s) := by
  unfold keysNodup
  infer_instance

/-- Every id listed under pool `p` maps to a record whose `pool_name` is `p`. -/
def poolIndexSound (s : QueueState) (p : String) : Prop :=
  ∀ id ∈ poolIds s p, ∀ pr ∈ s.jobs, pr.1 = id → pr.2.pool_name = p

instance (s : QueueState) (p : String) : Decidable (poolIndexSound s p) := by
  unfold poolIndexSound
  infer_instance

/-- Every QUEUED record with `pool_name = p` is listed under pool `p`. -/
def poolIndexComplete (s : QueueState) (p : String) : Prop :=
  ∀ pr ∈ s.jobs, pr.2.status = .queued → pr.2.pool_name = p → pr.1 ∈ poolIds s p

instance (s : QueueState) (p : String) : Decidable (poolIndexComplete s p) := by
  unfold poolIndexComplete
  infer_instance

/-- Every QUEUED record's id is in the QUEUED status index. -/
def queuedIndexed (s : QueueState) : Prop :=
  ∀ pr ∈ s.jobs, pr.2.status = .queued → pr.2.job_id ∈ s.queuedIds

instance (s : QueueState) : Decidable (queuedIndexed s) := by
  unfold queuedIndexed
  infer_instance

/-- Every CLAIMED record's id is in the CLAIMED status index. -/
def claimedIndexed (s : QueueState) : Prop :=
  ∀ pr ∈ s.jobs, pr.2.status = .claimed → pr.2.job_id ∈ s.claimedIds

instance (s : QueueState) : Decidable (claimedIndexed s) := by
  unfold claimedIndexed
  infer_instance

/-! ### Concrete scenario states

Each scenario is built by running the engine operations themselves, so every
state used by a witness or counterexample is reachable through the store's
own API.  The explicit record definitions restate what the operations
compute, and the witness hypotheses check the two agree by evaluation. -/

/-- Job `j1` enqueued at time 0 into pool `p` (scenario for C1). -/
def c1State : QueueState :=
  (enqueue_job emptyQueue { job_id := "j1", job_type := "b", pool_name := "p" } 0).1

/-- The stored record of `j1` in `c1State`. -/
def c1Job : QueuedJob :=
  { job_id := "j1", job_type := "b", pool_name := "p", status := .queued }

/-- Jobs enqueued with priorities LOW, CRITICAL, NORMAL in that order
(scenario for C2, mirroring the spec's priority-ordering test). -/
def c2State : QueueState :=
  (enqueue_job (enqueue_job (enqueue_job emptyQueue
      { job_id := "L1", job_type := "t", pool_name := "p", priority := .low } 0).1
      { job_id := "C1", job_type := "t", pool_name := "p", priority := .critical } 1).1
      { job_id := "N1", job_type := "t", pool_name := "p", priority := .normal } 2).1

/-- Counterexample state for C2: the same `job_id` enqueued into pool `a` and
then re-enqueued into pool `b`; the id lingers in pool `a`'s index while the
stored record now belongs to pool `b`. -/
def c2CexState : QueueState :=
  (enqueue_job (enqueue_job emptyQueue
      { job_id := "X", job_type := "t", pool_name := "a" } 0).1
      { job_id := "X", job_type := "t", pool_name := "b" } 1).1

/-- Scenario for C3: job `G` enqueued, claimed, started and completed
successfully — a COMPLETED (terminal) record. -/
def c3State : QueueState :=
  (complete_job (start_job (claim_job (enqueue_job emptyQueue
      { job_id := "G", job_type := "t", pool_name := "p" } 0).1
      "ag" "p" 30 1).1 "G" "ag" 2).1 "G" 0 4 none 3).1

/-- The stored record of `G` in `c3State`. -/
def c3Job : QueuedJob :=
  { job_id := "G", job_type := "t", pool_name := "p", status := .completed,
    queued_at := 0, claimed_at := some 1, started_at := some 2, completed_at := some 3,
    claimed_by_agent := some "ag", claimed_lease_expires_at := some 31,
    exit_code := some 0, duration_seconds := some 4, updated_at := 3 }

/-- Scenario for C4 (`max_attempts = 2`): first failure. -/
def w4a : QueueState :=
  (complete_job (claim_job (enqueue_job emptyQueue
      { job_id := "F", job_type := "t", pool_name := "p", max_attempts := 2 } 0).1
      "ag" "p" 30 1).1 "F" 1 3 (some "boom") 2).1

/-- The stored FAILED record of `F` in `w4a` (attempt 1 of 2). -/
def w4aJob : QueuedJob :=
  { job_id := "F", job_type := "t", pool_name := "p", status := .failed,
    queued_at := 0, claimed_at := some 1, completed_at := some 2,
    claimed_by_agent := some "ag", claimed_lease_expires_at := some 31,
    attempt := 1, max_attempts := 2, error_message := some "boom",
    exit_code := some 1, duration_seconds := some 3, updated_at := 2 }

/-- Scenario for C4: after the first retry, job `F` is claimed and fails a
second time (attempt 2 of 2). -/
def w4b : QueueState :=
  (complete_job (claim_job (retry_failed_job w4a "F" 3).1 "ag" "p" 30 4).1
    "F" 1 3 (some "boom") 5).1

/-- The stored FAILED record of `F` in `w4b`. -/
def w4bJob : QueuedJob :=
  { w4aJob with
      claimed_at := some 4
      claimed_lease_expires_at := some 34
      attempt := 2
      completed_at := some 5
      updated_at := 5 }

/-- Scenario for C4: after the retry decision dead-letters `F`. -/
def w4c : QueueState := (retry_failed_job w4b "F" 6).1

/-- The stored DEAD_LETTERED record of `F` in `w4c`. -/
def w4cJob : QueuedJob := { w4bJob with status := .dead_lettered }

/-- Scenario for C5's counterexample: job `L` enqueued at 0. -/
def c5Pre : QueueState :=
  (enqueue_job emptyQueue { job_id := "L", job_type := "t", pool_name := "p" } 0).1

/-- Job `L` claimed at 5 with a 10 second lease. -/
def c5Claimed : QueueState := (claim_job c5Pre "ag" "p" 10 5).1

/-- The stored CLAIMED record of `L` in `c5Claimed`. -/
def c5Job : QueuedJob :=
  { job_id := "L", job_type := "t", pool_name := "p", status := .claimed,
    queued_at := 0, claimed_at := some 5, claimed_by_agent := some "ag",
    claimed_lease_expires_at := some 15, updated_at := 5 }

/-- The maintenance sweep at time 20 (the lease expired at 15). -/
def c5Post : QueueState := (requeue_expired_leases c5Claimed 20).1

/-- Scenario for C5's lease-0 round trip: job `R` claimed with
`lease_duration_seconds = 0` at time 5. -/
def c5rtClaimed : QueueState :=
  (claim_job (enqueue_job emptyQueue
      { job_id := "R", job_type := "t", pool_name := "p" } 0).1 "ag" "p" 0 5).1

/-- Scenario shared by the C6/C8/C10 witnesses: job `K` enqueued at 0 and
claimed by agent `ag` at 1. -/
def baseClaimed : QueueState :=
  (claim_job (enqueue_job emptyQueue
      { job_id := "K", job_type := "t", pool_name := "p" } 0).1 "ag" "p" 30 1).1

/-- The stored CLAIMED record of `K` in `baseClaimed`. -/
def baseClaimedJob : QueuedJob :=
  { job_id := "K", job_type := "t", pool_name := "p", status := .claimed,
    queued_at := 0, claimed_at := some 1, claimed_by_agent := some "ag",
    claimed_lease_expires_at := some 31, updated_at := 1 }

/-- Scenario for C7's worked example: three jobs with queue waits 10, 20 and
30 seconds; two complete successfully, one fails. -/
def c7Example : QueueState :=
  (complete_job (complete_job (complete_job
    (claim_job (claim_job (claim_job
      (enqueue_job (enqueue_job (enqueue_job emptyQueue
        { job_id := "A", job_type := "t", pool_name := "q" } 0).1
        { job_id := "B", job_type := "t", pool_name := "q" } 0).1
        { job_id := "C", job_type := "t", pool_name := "q" } 0).1
      "ag" "q" 30 10).1 "ag" "q" 30 20).1 "ag" "q" 30 30).1
    "A" 0 5 none 40).1 "B" 0 5 none 41).1 "C" 1 5 (some "e") 42).1

/-- Scenario for C7's counterexample, first half: job `E` completed with a
10 second queue wait. -/
def c7CexHalf : QueueState :=
  (complete_job (claim_job (enqueue_job emptyQueue
      { job_id := "E", job_type := "t", pool_name := "q" } 0).1 "ag" "q" 30 10).1
    "E" 0 5 none 11).1

/-- Second half: job `D` (`max_attempts = 1`) fails with a 30 second queue
wait and is then dead-lettered by the retry decision. -/
def c7Cex : QueueState :=
  (retry_failed_job (complete_job (claim_job (enqueue_job c7CexHalf
      { job_id := "D", job_type := "t", pool_name := "q", max_attempts := 1 } 0).1
      "ag" "q" 30 30).1 "D" 1 5 (some "x") 31).1 "D" 32).1

/-- Scenario for C8's counterexample: job `Z` with `max_attempts = 1` fails;
its retry decision must dead-letter it. -/
def c8Failed : QueueState :=
  (complete_job (claim_job (enqueue_job emptyQueue
      { job_id := "Z", job_type := "t", pool_name := "p", max_attempts := 1 } 0).1
      "ag" "p" 30 1).1 "Z" 1 4 (some "err") 2).1

/-- Scenario for C8's witness: a QUEUED job that already exhausted its
attempts (`max_attempts = 1`), i.e. retry-ineligible without being FAILED. -/
def c8Queued : QueueState :=
  (enqueue_job emptyQueue
    { job_id := "M", job_type := "t", pool_name := "p", max_attempts := 1 } 0).1

/-- A context missing `job_type` and `pool_name` (C8 validation witness). -/
def c8CtxMissing : EnqueueCtx := { job_id := some "A" }

/-- Scenario for C9: `X` first enqueued with priority HIGH into pool `a`. -/
def c9First : QueueState :=
  (enqueue_job emptyQueue
    { job_id := "X", job_type := "t", pool_name := "a", priority := .high } 0).1

/-- Scenario for C10: job `K` completed successfully after being claimed —
a terminal record that still carries `claimed_by_agent = "ag"`. -/
def c10Finished : QueueState := (complete_job baseClaimed "K" 0 9 none 2).1

/-- The stored COMPLETED record of `K` in `c10Finished`. -/
def c10FinJob : QueuedJob :=
  { baseClaimedJob with
      status := .completed
      exit_code := some 0
      duration_seconds := some 9
      completed_at := some 2
      updated_at := 2 }

/-! ### Association-list laws -/

theorem lookupJob_updateJob_self (l : List (String × QueuedJob)) (k : String) (v : QueuedJob) :
    lookupJob (updateJob l k v) k = some v := by
  induction l with
  | nil => simp [updateJob, lookupJob]
  | cons p rest ih =>
    obtain ⟨k₀, v₀⟩ := p
    by_cases h : k₀ = k
    · simp [updateJob, h, lookupJob]
    · simp [updateJob, h, lookupJob, ih]

theorem lookupJob_updateJob_ne (l : List (String × QueuedJob)) (k k' : String) (v : QueuedJob)
    (h : k' ≠ k) : lookupJob (updateJob l k v) k' = lookupJob l k' := by
  have h' : ¬ k = k' := Ne.symm h
  induction l with
  | nil => simp [updateJob, lookupJob, h']
  | cons p rest ih =>
    obtain ⟨k₀, v₀⟩ := p
    by_cases h₀ : k₀ = k
    · subst h₀
      simp [updateJob, lookupJob, h']
    · simp [updateJob, h₀, lookupJob, ih]

theorem lookupJob_mem {l : List (String × QueuedJob)} {k : String} {v : QueuedJob}
    (h : lookupJob l k = some v) : (k, v) ∈ l := by
  induction l with
  | nil => simp [lookupJob] at h
  | cons p rest ih =>
    obtain ⟨k₀, v₀⟩ := p
    by_cases h₀ : k₀ = k
    · subst h₀
      simp [lookupJob] at h
      simp [h]
    · simp [lookupJob, h₀] at h
      exact List.mem_cons_of_mem _ (ih h)

theorem mem_lookupJob {l : List (String × QueuedJob)} {k : String} {v : QueuedJob}
    (hnd : (l.map Prod.fst).Nodup) (h : (k, v) ∈ l) : lookupJob l k = some v := by
  induction l with
  | nil => simp at h
  | cons p rest ih =>
    obtain ⟨k₀, v₀⟩ := p
    rw [List.map_cons, List.nodup_cons] at hnd
    rcases List.mem_cons.mp h with h | h
    · cases h
      simp [lookupJob]
    · have hk : ¬ k₀ = k := by
        intro hk
        subst hk
        have hm : k₀ ∈ rest.map Prod.fst := List.mem_map.mpr ⟨(k₀, v), h, rfl⟩
        exact hnd.1 hm
      simp only [lookupJob, if_neg hk]
      exact ih hnd.2 h

theorem lookupJob_mapVal (l : List (String × QueuedJob)) (g : QueuedJob → QueuedJob)
    (k : String) :
    lookupJob (l.map fun pr => (pr.1, g pr.2)) k = (lookupJob l k).map g := by
  induction l with
  | nil => simp [lookupJob]
  | cons p rest ih =>
    obtain ⟨k₀, v₀⟩ := p
    by_cases h : k₀ = k
    · simp [lookupJob, h]
    · simp [lookupJob, h, ih]

/-! ### Minimal-key selection laws -/

theorem claimKeyLtP_irrefl (j : QueuedJob) : ¬ claimKeyLtP j j := by
  unfold claimKeyLtP
  omega

theorem claimKeyLtP_notLt_notLt {a b c : QueuedJob}
    (h1 : ¬ claimKeyLtP a b) (h2 : ¬ claimKeyLtP b c) : ¬ claimKeyLtP a c := by
  unfold claimKeyLtP at h1 h2 ⊢
  omega

theorem claimKeyLtP_lt_notLt {a b c : QueuedJob}
    (h1 : claimKeyLtP a b) (h2 : ¬ claimKeyLtP a c) : ¬ claimKeyLtP b c := by
  unfold claimKeyLtP at h1 h2 ⊢
  omega

theorem foldMin_spec (c : String × QueuedJob) (l : List (String × QueuedJob)) :
    (l.foldl (fun cur x => if claimKeyLt x.2 cur.2 then x else cur) c) ∈ c :: l ∧
      ∀ x ∈ c :: l,
        ¬ claimKeyLtP x.2 (l.foldl (fun cur x => if claimKeyLt x.2 cur.2 then x else cur) c).2 := by
  induction l generalizing c with
  | nil =>
    refine ⟨by simp, ?_⟩
    intro x hx
    simp at hx
    subst hx
    exact claimKeyLtP_irrefl _
  | cons a t ih =>
    by_cases h : claimKeyLt a.2 c.2
    · have hlt : claimKeyLtP a.2 c.2 := of_decide_eq_true h
      have hred : (a :: t).foldl (fun cur x => if claimKeyLt x.2 cur.2 then x else cur) c =
          t.foldl (fun cur x => if claimKeyLt x.2 cur.2 then x else cur) a := by
        simp [List.foldl_cons, h]
      rw [hred]
      obtain ⟨hmem, hmin⟩ := ih a
      refine ⟨?_, ?_⟩
      · rcases List.mem_cons.mp hmem with hm | hm
        · simp [hm]
        · simp [List.mem_cons_of_mem, hm]
      · intro x hx
        rcases List.mem_cons.mp hx with hx | hx
        · subst hx
          exact claimKeyLtP_lt_notLt hlt (hmin a (by simp))
        · exact hmin x hx
    · have hnlt : ¬ claimKeyLtP a.2 c.2 := of_decide_eq_false (by simpa [claimKeyLt] using h)
      have hred : (a :: t).foldl (fun cur x => if claimKeyLt x.2 cur.2 then x else cur) c =
          t.foldl (fun cur x => if claimKeyLt x.2 cur.2 then x else cur) c := by
        simp [List.foldl_cons, h]
      rw [hred]
      obtain ⟨hmem, hmin⟩ := ih c
      refine ⟨?_, ?_⟩
      · rcases List.mem_cons.mp hmem with hm | hm
        · simp [hm]
        · simp [List.mem_cons_of_mem, hm]
      · intro x hx
        rcases List.mem_cons.mp hx with hx | hx
        · subst hx
          exact hmin x (by simp)
        · rcases List.mem_cons.mp hx with hx | hx
          · subst hx
            exact claimKeyLtP_notLt_notLt hnlt (hmin c (by simp))
          · exact hmin x (by simp [List.mem_cons_of_mem, hx])

theorem selectFirstMin_spec {l : List (String × QueuedJob)} {c : String × QueuedJob}
    (h : selectFirstMin l = some c) :
    c ∈ l ∧ ∀ x ∈ l, ¬ claimKeyLtP x.2 c.2 := by
  cases l with
  | nil => simp [selectFirstMin] at h
  | cons p rest =>
    simp only [selectFirstMin, Option.some.injEq] at h
    subst h
    exact foldMin_spec p rest

theorem selectFirstMin_eq_none {l : List (String × QueuedJob)} :
    selectFirstMin l = none ↔ l = [] := by
  cases l <;> simp [selectFirstMin]

theorem mem_claimCandidates {s : QueueState} {p : String} {jid : String} {j : QueuedJob} :
    (jid, j) ∈ claimCandidates s p ↔
      jid ∈ poolIds s p ∧ lookupJob s.jobs jid = some j ∧ j.status = .queued := by
  unfold claimCandidates
  rw [List.mem_filterMap]
  constructor
  · rintro ⟨a, ha, hfa⟩
    cases hl : lookupJob s.jobs a with
    | none => simp [hl] at hfa
    | some jb =>
      rw [hl] at hfa
      by_cases hst : jb.status = JobQueueStatus.queued
      · simp [hst] at hfa
        obtain ⟨h1, h2⟩ := hfa
        subst h1
        subst h2
        exact ⟨ha, hl, hst⟩
      · simp [hst] at hfa
  · rintro ⟨hmem, hl, hst⟩
    exact ⟨jid, hmem, by simp [hl, hst]⟩

/-! ### Reductions of `claim_job` -/

theorem claim_job_of_candidates_nil {s : QueueState} {a p : String} {l now : Int}
    (h : claimCandidates s p = []) : claim_job s a p l now = (s, none) := by
  simp [claim_job, h, selectFirstMin]

theorem claim_job_of_selected {s : QueueState} {a p : String} {l now : Int}
    {jid : String} {job : QueuedJob}
    (h : selectFirstMin (claimCandidates s p) = some (jid, job)) :
    claim_job s a p l now =
      ({ s with
          jobs := updateJob s.jobs jid (claimRec job a l now)
          queuedIds := s.queuedIds.erase job.job_id
          claimedIds := s.claimedIds ++ [job.job_id] },
       some (claimRec job a l now)) := by
  simp [claim_job, h]

theorem pushStatus_jobs (s : QueueState) (st : JobQueueStatus) (id : String) :
    (pushStatus s st id).jobs = s.jobs := by
  cases st <;> rfl

/-! ### C6 — complete_job -/

/-- C6: for every existing job, `complete_job` sets `exit_code`,
`duration_seconds`, `error_message` and `completed_at = now` and moves the
status to COMPLETED when `exit_code = 0` and to FAILED otherwise (this is
the content of `completeRec`); when the id names no known job it returns the
not-found result and changes nothing. -/
theorem complete_job_spec :
    (∀ (s : QueueState) (job_id : String) (ec dur : Int) (err : Option String) (now : Int),
        lookupJob s.jobs job_id = none →
        complete_job s job_id ec dur err now = (s, none)) ∧
    (∀ (s : QueueState) (job_id : String) (ec dur : Int) (err : Option String) (now : Int)
        (j : QueuedJob), lookupJob s.jobs job_id = some j →
        (complete_job s job_id ec dur err now).2 = some (completeRec j ec dur err now) ∧
        lookupJob (complete_job s job_id ec dur err now).1.jobs job_id =
          some (completeRec j ec dur err now)) := by
  constructor
  · intro s job_id ec dur err now h
    simp [complete_job, h]
  · intro s job_id ec dur err now j h
    refine ⟨by simp [complete_job, h], ?_⟩
    have hjobs : (complete_job s job_id ec dur err now).1.jobs =
        updateJob s.jobs job_id (completeRec j ec dur err now) := by
      simp [complete_job, h, pushStatus_jobs]
    rw [hjobs, lookupJob_updateJob_self]

/-- Witness for C6 at the claimed job `K`: exit code 0 yields a COMPLETED
record, exit code 1 a FAILED record, and an unknown id changes nothing. -/
theorem complete_job_witness :
    (complete_job baseClaimed "K" 0 9 none 2).2 = some (completeRec baseClaimedJob 0 9 none 2) ∧
    (completeRec baseClaimedJob 0 9 none 2).status = .completed ∧
    (complete_job baseClaimed "K" 1 9 none 2).2 = some (completeRec baseClaimedJob 1 9 none 2) ∧
    (completeRec baseClaimedJob 1 9 none 2).status = .failed ∧
    complete_job baseClaimed "ZZ" 0 9 none 2 = (baseClaimed, none) := by
  refine ⟨(complete_job_spec.2 baseClaimed "K" 0 9 none 2 baseClaimedJob (by decide)).1,
    by decide,
    (complete_job_spec.2 baseClaimed "K" 1 9 none 2 baseClaimedJob (by decide)).1,
    by decide,
    complete_job_spec.1 baseClaimed "ZZ" 0 9 none 2 (by decide)⟩

/-! ### C9 — enqueue_job overwrites silently -/

/-- C9: `enqueue_job` never reports a duplicate-identifier error (it is total
and always returns the stored job); it forces `status = QUEUED` and
`queued_at = now` whatever the caller supplied; and a second enqueue with
the same `job_id` replaces the previously stored record for that id. -/
theorem enqueue_overwrite_spec :
    ∀ (s : QueueState) (job : QueuedJob) (now : Int),
      (enqueue_job s job now).2 = { job with status := .queued, queued_at := now } ∧
      lookupJob (enqueue_job s job now).1.jobs job.job_id =
        some { job with status := .queued, queued_at := now } ∧
      ∀ old : QueuedJob, lookupJob s.jobs job.job_id = some old →
        lookupJob (enqueue_job s job now).1.jobs job.job_id =
          some { job with status := .queued, queued_at := now } := by
  intro s job now
  refine ⟨rfl, ?_, fun old _ => ?_⟩
  · simp [enqueue_job, lookupJob_updateJob_self]
  · simp [enqueue_job, lookupJob_updateJob_self]

/-- Witness for C9: `X` (HIGH priority, pool `a`) is silently replaced by a
second enqueue of `X` into pool `b`. -/
theorem enqueue_overwrite_witness :
    lookupJob (enqueue_job c9First
        { job_id := "X", job_type := "u", pool_name := "b" } 5).1.jobs "X" =
      some { job_id := "X", job_type := "u", pool_name := "b",
             status := .queued, queued_at := 5 } := by
  exact (enqueue_overwrite_spec c9First
    { job_id := "X", job_type := "u", pool_name := "b" } 5).2.2
    { job_id := "X", job_type := "t", pool_name := "a", priority := .high,
      status := .queued } (by decide)

/-! ### C10 — start_job ignores the status -/

/-- C10: `start_job` checks only that the job exists and that
`claimed_by_agent` equals the caller, never the status: for every record
whose `claimed_by_agent` matches, it sets the status to RUNNING and
overwrites `started_at` whatever the current status is; and `complete_job`
never clears `claimed_by_agent`, so the agent that last held a finished job
can move it back to RUNNING. -/
theorem start_job_ignores_status_spec :
    (∀ (s : QueueState) (job_id agent : String) (now : Int) (j : QueuedJob),
        lookupJob s.jobs job_id = some j → j.claimed_by_agent = some agent →
        (start_job s job_id agent now).2 = some (startRec j now) ∧
        lookupJob (start_job s job_id agent now).1.jobs job_id = some (startRec j now)) ∧
    (∀ (s : QueueState) (job_id : String) (ec dur : Int) (err : Option String) (now : Int)
        (j j' : QueuedJob), lookupJob s.jobs job_id = some j →
        (complete_job s job_id ec dur err now).2 = some j' →
        j'.claimed_by_agent = j.claimed_by_agent) := by
  constructor
  · intro s job_id agent now j h hagent
    refine ⟨by simp [start_job, h, hagent], ?_⟩
    have hjobs : (start_job s job_id agent now).1.jobs =
        updateJob s.jobs job_id (startRec j now) := by
      simp [start_job, h, hagent]
    rw [hjobs, lookupJob_updateJob_self]
  · intro s job_id ec dur err now j j' h hres
    simp [complete_job, h] at hres
    rw [← hres]
    rfl

/-- Witness for C10: the COMPLETED record of `K` (still claimed by `ag`) is
moved back to RUNNING by `start_job`. -/
theorem start_job_ignores_status_witness :
    (start_job c10Finished "K" "ag" 3).2 = some (startRec c10FinJob 3) ∧
    c10FinJob.status = .completed ∧ (startRec c10FinJob 3).status = .running := by
  refine ⟨(start_job_ignores_status_spec.1 c10Finished "K" "ag" 3 c10FinJob
    (by decide) (by decide)).1, by decide, by decide⟩

/-! ### C4 — the retry decision -/

/-- C4: for a FAILED job, if `attempt < max_attempts` the record's `attempt`
is incremented, the claim and execution fields are all cleared and the
status becomes QUEUED (this is `retryRec`); otherwise the status becomes
DEAD_LETTERED and the cannot-retry signal (a `None` return) is produced;
and a retry attempt on the resulting DEAD_LETTERED job again returns the
cannot-retry signal without any change.  The FAILED-index membership
hypothesis reflects that the Python `list.remove` would otherwise raise. -/
theorem retry_decision_spec :
    (∀ (s : QueueState) (id : String) (j : QueuedJob) (now : Int),
        lookupJob s.jobs id = some j → j.job_id = id → j.status = .failed →
        j.attempt < j.max_attempts → id ∈ s.failedIds →
        (retry_failed_job s id now).2 = .returned (some (retryRec j now)) ∧
        lookupJob (retry_failed_job s id now).1.jobs id = some (retryRec j now)) ∧
    (∀ (s : QueueState) (id : String) (j : QueuedJob) (now : Int),
        lookupJob s.jobs id = some j → j.job_id = id → j.status = .failed →
        ¬ j.attempt < j.max_attempts → id ∈ s.failedIds →
        (retry_failed_job s id now).2 = .returned none ∧
        lookupJob (retry_failed_job s id now).1.jobs id =
          some { j with status := .dead_lettered }) ∧
    (∀ (s : QueueState) (id : String) (j : QueuedJob) (now : Int),
        lookupJob s.jobs id = some j → j.status = .dead_lettered →
        ¬ j.attempt < j.max_attempts →
        retry_failed_job s id now = (s, .returned none)) := by
  refine ⟨?_, ?_, ?_⟩
  · intro s id j now h hid hst hlt hmem
    have hcan : j.can_retry = true := decide_eq_true hlt
    constructor
    · simp [retry_failed_job, h, hcan, hid, hmem]
    · have hjobs : (retry_failed_job s id now).1.jobs =
          updateJob s.jobs id (retryRec j now) := by
        simp [retry_failed_job, h, hcan, hid, hmem]
      rw [hjobs, lookupJob_updateJob_self]
  · intro s id j now h hid hst hnlt hmem
    have hcan : j.can_retry = false := by
      simp [QueuedJob.can_retry, hnlt]
    constructor
    · simp [retry_failed_job, h, hcan, hst, hid, hmem]
    · have hjobs : (retry_failed_job s id now).1.jobs =
          updateJob s.jobs id { j with status := .dead_lettered } := by
        simp [retry_failed_job, h, hcan, hst, hid, hmem]
      rw [hjobs, lookupJob_updateJob_self]
  · intro s id j now h hst hnlt
    have hcan : j.can_retry = false := by
      simp [QueuedJob.can_retry, hnlt]
    simp [retry_failed_job, h, hcan, hst]

/-- Witness for C4, replaying the spec's `max_attempts = 2` scenario: the
first failure's retry re-queues with attempt 2, the second failure's retry
decision dead-letters, and a further retry returns the cannot-retry signal. -/
theorem retry_decision_witness :
    (retry_failed_job w4a "F" 3).2 = .returned (some (retryRec w4aJob 3)) ∧
    (retryRec w4aJob 3).status = .queued ∧ (retryRec w4aJob 3).attempt = 2 ∧
    (retry_failed_job w4b "F" 6).2 = .returned none ∧
    lookupJob (retry_failed_job w4b "F" 6).1.jobs "F" =
      some { w4bJob with status := .dead_lettered } ∧
    retry_failed_job w4c "F" 7 = (w4c, .returned none) := by
  refine ⟨(retry_decision_spec.1 w4a "F" w4aJob 3 (by decide) (by decide) (by decide)
      (by decide) (by decide)).1,
    by decide, by decide,
    (retry_decision_spec.2.1 w4b "F" w4bJob 6 (by decide) (by decide) (by decide)
      (by decide) (by decide)).1,
    (retry_decision_spec.2.1 w4b "F" w4bJob 6 (by decide) (by decide) (by decide)
      (by decide) (by decide)).2,
    retry_decision_spec.2.2 w4c "F" w4cJob 7 (by decide) (by decide) (by decide)⟩

/-! ### C8 — error outcomes and state mutation -/

/-- Counterexample to C8 as stated: on a FAILED job out of attempts,
`retry_failed_job` reports the cannot-retry outcome (a `None` return) AND
mutates the record, dead-lettering it. -/
theorem retry_cannot_retry_mutates_cex :
    (retry_failed_job c8Failed "Z" 3).2 = .returned none ∧
    (lookupJob c8Failed.jobs "Z").map QueuedJob.status = some .failed ∧
    (lookupJob (retry_failed_job c8Failed "Z" 3).1.jobs "Z").map QueuedJob.status =
      some .dead_lettered := by
  decide

/-- C8 (amended): enqueue validation errors and not-found / not-owner /
cannot-retry outcomes are reported synchronously and leave the job set
unchanged — with the one exception the counterexample forces: reporting
cannot-retry for an exhausted FAILED job also dead-letters that record. -/
theorem error_paths_no_mutation_spec :
    (∀ (s : QueueState) (ctx : EnqueueCtx) (now : Int),
        (falsyStr ctx.job_id || falsyStr ctx.job_type || falsyStr ctx.pool_name) = true →
        enqueueJobLink s ctx now =
          (s, .error "Missing required fields: job_id, job_type, pool_name")) ∧
    (∀ (s : QueueState) (job_id agent : String) (now : Int),
        lookupJob s.jobs job_id = none → start_job s job_id agent now = (s, none)) ∧
    (∀ (s : QueueState) (job_id agent : String) (now : Int) (j : QueuedJob),
        lookupJob s.jobs job_id = some j → j.claimed_by_agent ≠ some agent →
        start_job s job_id agent now = (s, none)) ∧
    (∀ (s : QueueState) (job_id : String) (ec dur : Int) (err : Option String) (now : Int),
        lookupJob s.jobs job_id = none → complete_job s job_id ec dur err now = (s, none)) ∧
    (∀ (s : QueueState) (job_id : String) (now : Int),
        lookupJob s.jobs job_id = none →
        retry_failed_job s job_id now = (s, .returned none)) ∧
    (∀ (s : QueueState) (job_id : String) (now : Int) (j : QueuedJob),
        lookupJob s.jobs job_id = some j → ¬ j.attempt < j.max_attempts →
        j.status ≠ .failed → retry_failed_job s job_id now = (s, .returned none)) ∧
    (∀ (s : QueueState) (id : String) (now : Int) (j : QueuedJob),
        lookupJob s.jobs id = some j → j.job_id = id → ¬ j.attempt < j.max_attempts →
        j.status = .failed → id ∈ s.failedIds →
        (retry_failed_job s id now).2 = .returned none ∧
        lookupJob (retry_failed_job s id now).1.jobs id =
          some { j with status := .dead_lettered }) := by
  refine ⟨?_, ?_, ?_, ?_, ?_, ?_, ?_⟩
  · intro s ctx now h
    simp [enqueueJobLink, h]
  · intro s job_id agent now h
    simp [start_job, h]
  · intro s job_id agent now j h hagent
    simp [start_job, h, hagent]
  · intro s job_id ec dur err now h
    simp [complete_job, h]
  · intro s job_id now h
    simp [retry_failed_job, h]
  · intro s job_id now j h hnlt hst
    have hcan : j.can_retry = false := by
      simp [QueuedJob.can_retry, hnlt]
    simp [retry_failed_job, h, hcan, hst]
  · intro s id now j h hid hnlt hst hmem
    have hcan : j.can_retry = false := by
      simp [QueuedJob.can_retry, hnlt]
    constructor
    · simp [retry_failed_job, h, hcan, hst, hid, hmem]
    · have hjobs : (retry_failed_job s id now).1.jobs =
          updateJob s.jobs id { j with status := .dead_lettered } := by
        simp [retry_failed_job, h, hcan, hst, hid, hmem]
      rw [hjobs, lookupJob_updateJob_self]

/-- Witness for C8: a validation error on a context missing required fields,
a not-owner start, a not-found complete, a not-found retry, and a
cannot-retry on a non-FAILED exhausted job — all leaving the state
unchanged. -/
theorem error_paths_no_mutation_witness :
    enqueueJobLink emptyQueue c8CtxMissing 0 =
      (emptyQueue, .error "Missing required fields: job_id, job_type, pool_name") ∧
    start_job baseClaimed "K" "other" 9 = (baseClaimed, none) ∧
    complete_job emptyQueue "Z" 0 1 none 2 = (emptyQueue, none) ∧
    retry_failed_job emptyQueue "Z" 2 = (emptyQueue, .returned none) ∧
    retry_failed_job c8Queued "M" 2 = (c8Queued, .returned none) := by
  refine ⟨error_paths_no_mutation_spec.1 emptyQueue c8CtxMissing 0 (by decide),
    error_paths_no_mutation_spec.2.2.1 baseClaimed "K" "other" 9 baseClaimedJob
      (by decide) (by decide),
    error_paths_no_mutation_spec.2.2.2.1 emptyQueue "Z" 0 1 none 2 (by decide),
    error_paths_no_mutation_spec.2.2.2.2.1 emptyQueue "Z" 2 (by decide),
    error_paths_no_mutation_spec.2.2.2.2.2.1 c8Queued "M" 2
      { job_id := "M", job_type := "t", pool_name := "p", max_attempts := 1,
        status := .queued } (by decide) (by decide) (by decide)⟩

/-! ### C3 — terminal records -/

/-- Counterexample to C3 as stated: the COMPLETED (terminal) record of `G` is
mutated by a further `complete_job` call, which moves it to FAILED. -/
theorem terminal_mutation_cex :
    (lookupJob c3State.jobs "G").map QueuedJob.status = some .completed ∧
    (lookupJob (complete_job c3State "G" 1 7 (some "boom") 4).1.jobs "G").map
        QueuedJob.status = some .failed := by
  decide

/-- C3 (amended): a COMPLETED or DEAD_LETTERED record is left unchanged by
`claim_job` and by `requeue_expired_leases` (the only operations that filter
on status); it is not immutable in general — the counterexample shows
`complete_job` rewrites it. -/
theorem terminal_preserved_spec :
    ∀ (s : QueueState) (id : String) (j : QueuedJob),
      lookupJob s.jobs id = some j →
      (j.status = .completed ∨ j.status = .dead_lettered) →
      (∀ (a p : String) (l now : Int),
          lookupJob (claim_job s a p l now).1.jobs id = some j) ∧
      (∀ now : Int, lookupJob (requeue_expired_leases s now).1.jobs id = some j) := by
  intro s id j hl hterm
  have hterm' : j.status ≠ JobQueueStatus.queued := by
    rcases hterm with h | h <;> rw [h] <;> decide
  constructor
  · intro a p l now
    cases hsel : selectFirstMin (claimCandidates s p) with
    | none =>
      have hcj : claim_job s a p l now = (s, none) := by
        simp [claim_job, hsel]
      rw [hcj]
      exact hl
    | some c =>
      obtain ⟨jid, job⟩ := c
      have hmem := mem_claimCandidates.mp (selectFirstMin_spec hsel).1
      have hne : id ≠ jid := by
        intro he
        subst he
        rw [hmem.2.1] at hl
        cases hl
        exact hterm' hmem.2.2
      have hjobs : (claim_job s a p l now).1.jobs =
          updateJob s.jobs jid (claimRec job a l now) := by
        rw [claim_job_of_selected hsel]
      rw [hjobs, lookupJob_updateJob_ne _ _ _ _ hne]
      exact hl
  · intro now
    have hsr : shouldRequeue j now = false := by
      rcases hterm with h | h <;> simp [shouldRequeue, h]
    have hres : lookupJob (requeue_expired_leases s now).1.jobs id =
        (lookupJob s.jobs id).map
          (fun jb => if shouldRequeue jb now then requeueRec jb now else jb) :=
      lookupJob_mapVal s.jobs
        (fun jb => if shouldRequeue jb now then requeueRec jb now else jb) id
    rw [hres, hl]
    simp [hsr]

/-- Witness for C3: the COMPLETED record of `G` survives a claim attempt on
its pool and a maintenance sweep unchanged. -/
theorem terminal_preserved_witness :
    lookupJob (claim_job c3State "a2" "p" 30 9).1.jobs "G" = some c3Job ∧
    lookupJob (requeue_expired_leases c3State 9).1.jobs "G" = some c3Job := by
  have h := terminal_preserved_spec c3State "G" c3Job (by decide) (Or.inl (by decide))
  exact ⟨h.1 "a2" "p" 30 9, h.2 9⟩

/-! ### C5 — requeue_expired_leases -/

/-- Counterexample to C5 as stated: after the sweep re-queues `L`, the record
still carries `claimed_at = some 5`, so it is not in the same state as if it
had never been claimed (before the claim, `claimed_at` was `none`). -/
theorem requeue_retains_claimed_at_cex :
    (lookupJob c5Pre.jobs "L").map QueuedJob.claimed_at = some none ∧
    (lookupJob c5Post.jobs "L").map QueuedJob.status = some .queued ∧
    (lookupJob c5Post.jobs "L").map QueuedJob.claimed_at = some (some 5) := by
  decide

/-- C5 (amended): the sweep scans every record; each CLAIMED record whose
lease expired (`claimed_lease_expires_at < now`) is transformed by
`requeueRec` — status back to QUEUED, `claimed_by_agent` and
`claimed_lease_expires_at` cleared, `attempt` and every other field
(including `claimed_at`) unchanged — every other record is untouched, and
the returned count is the number of such records.  A job claimed with
`lease_duration_seconds = 0` is reclaimed by a sweep at any strictly later
instant (here one second later) and can then be claimed again. -/
theorem requeue_expired_leases_spec :
    (∀ (s : QueueState) (now : Int), keyConsistent s → claimedIndexed s →
        (requeue_expired_leases s now).2 =
          (s.jobs.filter fun pr => shouldRequeue pr.2 now).length ∧
        ∀ (id : String) (j : QueuedJob), lookupJob s.jobs id = some j →
          lookupJob (requeue_expired_leases s now).1.jobs id =
            some (if shouldRequeue j now then requeueRec j now else j)) ∧
    ((requeue_expired_leases c5rtClaimed 6).2 ≥ 1 ∧
      (claim_job (requeue_expired_leases c5rtClaimed 6).1 "a2" "p" 30 7).2.map
          QueuedJob.job_id = some "R") := by
  constructor
  · intro s now hkey hcl
    constructor
    · simp [requeue_expired_leases]
    · intro id j h
      have hres : lookupJob (requeue_expired_leases s now).1.jobs id =
          (lookupJob s.jobs id).map
            (fun jb => if shouldRequeue jb now then requeueRec jb now else jb) :=
        lookupJob_mapVal s.jobs
          (fun jb => if shouldRequeue jb now then requeueRec jb now else jb) id
      rw [hres, h]
      rfl
  · exact ⟨by decide, by decide⟩

/-- Witness for C5's sweep characterization at the concrete claimed state:
`L`'s record is transformed exactly by `requeueRec` (the lease expired at
15 < 20), which keeps `attempt` and retains `claimed_at`. -/
theorem requeue_expired_leases_witness :
    lookupJob (requeue_expired_leases c5Claimed 20).1.jobs "L" =
      some (if shouldRequeue c5Job 20 then requeueRec c5Job 20 else c5Job) ∧
    (if shouldRequeue c5Job 20 then requeueRec c5Job 20 else c5Job) = requeueRec c5Job 20 ∧
    (requeueRec c5Job 20).attempt = c5Job.attempt := by
  refine ⟨(requeue_expired_leases_spec.1 c5Claimed 20 (by decide) (by decide)).2 "L" c5Job
    (by decide), by decide, by decide⟩

/-! ### C7 — queue statistics -/

/-- Counterexample to C7 as stated: in a reachable state with one COMPLETED
job (queue wait 10) and one DEAD_LETTERED job (queue wait 30), the code's
mean queue-wait is 10 — the dead-lettered job is excluded — while the mean
over the spec's finished set (COMPLETED, FAILED, or DEAD_LETTERED) is 20. -/
theorem stats_exclude_dead_lettered_cex :
    (get_queue_stats c7Cex).avg_queue_wait_seconds = 10 ∧
    specMeanQueueWait c7Cex = 20 ∧
    (get_queue_stats c7Cex).avg_queue_wait_seconds ≠ specMeanQueueWait c7Cex := by
  have h1 : (get_queue_stats c7Cex).avg_queue_wait_seconds = 10 := by
    have hw : waitTimes ((c7Cex.completedIds.filterMap fun jid => lookupJob c7Cex.jobs jid) ++
        (c7Cex.failedIds.filterMap fun jid => lookupJob c7Cex.jobs jid)) = [10] := by decide
    show listMean (waitTimes ((c7Cex.completedIds.filterMap fun jid => lookupJob c7Cex.jobs jid) ++
        (c7Cex.failedIds.filterMap fun jid => lookupJob c7Cex.jobs jid))) = 10
    rw [hw]
    norm_num [listMean, List.sum]
  have h2 : specMeanQueueWait c7Cex = 20 := by
    have hw : waitTimes (specFinishedJobs c7Cex) = [10, 30] := by decide
    show listMean (waitTimes (specFinishedJobs c7Cex)) = 20
    rw [hw]
    norm_num [listMean, List.sum]
  refine ⟨h1, h2, ?_⟩
  rw [h1, h2]
  norm_num

/-- C7 (amended): `get_queue_stats` is a pure function of the state; its
timing metrics are computed over the jobs in the COMPLETED and FAILED
indexes only — dead-lettered jobs are excluded — while `failure_rate`
divides failed + dead-lettered by completed + failed + dead-lettered; on
the spec's worked example (two completed jobs with queue waits 10 and 20
and one failed job with queue wait 30) the mean queue wait is 20.0 and the
failure rate is 1/3. -/
theorem queue_stats_spec :
    (∀ s : QueueState,
        (get_queue_stats s).avg_queue_wait_seconds =
          listMean (waitTimes ((s.completedIds.filterMap fun jid => lookupJob s.jobs jid) ++
            (s.failedIds.filterMap fun jid => lookupJob s.jobs jid))) ∧
        (get_queue_stats s).avg_execution_seconds =
          listMean (executionTimes ((s.completedIds.filterMap fun jid => lookupJob s.jobs jid) ++
            (s.failedIds.filterMap fun jid => lookupJob s.jobs jid))) ∧
        (get_queue_stats s).failure_rate =
          (if s.completedIds.length + s.failedIds.length + s.deadLetteredIds.length = 0
           then 0
           else ((s.failedIds.length + s.deadLetteredIds.length : Nat) : Rat) /
             ((s.completedIds.length + s.failedIds.length + s.deadLetteredIds.length : Nat) :
               Rat))) ∧
    ((get_queue_stats c7Example).avg_queue_wait_seconds = 20 ∧
      (get_queue_stats c7Example).failure_rate = 1 / 3) := by
  constructor
  · intro s
    exact ⟨rfl, rfl, rfl⟩
  · constructor
    · have hw : waitTimes
          ((c7Example.completedIds.filterMap fun jid => lookupJob c7Example.jobs jid) ++
            (c7Example.failedIds.filterMap fun jid => lookupJob c7Example.jobs jid)) =
          [10, 20, 30] := by decide
      show listMean (waitTimes
        ((c7Example.completedIds.filterMap fun jid => lookupJob c7Example.jobs jid) ++
          (c7Example.failedIds.filterMap fun jid => lookupJob c7Example.jobs jid))) = 20
      rw [hw]
      norm_num [listMean, List.sum]
    · show (if c7Example.completedIds.length + c7Example.failedIds.length +
          c7Example.deadLetteredIds.length = 0 then (0 : Rat)
        else ((c7Example.failedIds.length + c7Example.deadLetteredIds.length : Nat) : Rat) /
          ((c7Example.completedIds.length + c7Example.failedIds.length +
            c7Example.deadLetteredIds.length : Nat) : Rat)) = 1 / 3
      have h1 : c7Example.completedIds.length = 2 := by decide
      have h2 : c7Example.failedIds.length = 1 := by decide
      have h3 : c7Example.deadLetteredIds.length = 0 := by decide
      rw [h1, h2, h3]
      norm_num

/-! ### C1 — claim exclusivity -/

/-- C1: (a) a job whose record is CLAIMED or RUNNING is never returned by a
further `claim_job` call (the candidate filter admits only QUEUED records);
(b) when a pool's index holds exactly one QUEUED job, a claim call obtains
it — atomically moving it to CLAIMED — and every further claim call on that
pool returns the no-job result, leaving the state unchanged.  The
`queuedIds` membership hypothesis reflects that the Python `list.remove`
would otherwise raise. -/
theorem claim_exclusivity :
    (∀ (s : QueueState) (id : String) (j : QueuedJob) (a p : String) (l now : Int),
        keyConsistent s → lookupJob s.jobs id = some j →
        (j.status = .claimed ∨ j.status = .running) →
        ∀ j', (claim_job s a p l now).2 = some j' → j'.job_id ≠ id) ∧
    (∀ (s : QueueState) (id₀ : String) (j₀ : QueuedJob) (p : String),
        lookupJob s.jobs id₀ = some j₀ → j₀.status = .queued → j₀.job_id = id₀ →
        id₀ ∈ s.queuedIds → id₀ ∈ poolIds s p →
        (∀ id ∈ poolIds s p, ∀ pr ∈ s.jobs, pr.1 = id → pr.2.status = .queued → id = id₀) →
        ∀ (a : String) (l now : Int),
          (claim_job s a p l now).2 = some (claimRec j₀ a l now) ∧
          ∀ (a' : String) (l' now' : Int),
            claim_job (claim_job s a p l now).1 a' p l' now' =
              ((claim_job s a p l now).1, none)) := by
  constructor
  · intro s id j a p l now hkey hl hcr j' hres
    cases hsel : selectFirstMin (claimCandidates s p) with
    | none =>
      simp [claim_job, hsel] at hres
    | some c =>
      obtain ⟨jid, job⟩ := c
      rw [claim_job_of_selected hsel] at hres
      simp only [Option.some.injEq] at hres
      subst hres
      intro heq
      have hmem := mem_claimCandidates.mp (selectFirstMin_spec hsel).1
      have hkj : job.job_id = jid := hkey (jid, job) (lookupJob_mem hmem.2.1)
      have hjobid : job.job_id = id := heq
      have hlook : lookupJob s.jobs id = some job := by
        rw [← hjobid, hkj]
        exact hmem.2.1
      rw [hl] at hlook
      cases hlook
      rcases hcr with h | h <;> rw [hmem.2.2] at h <;> exact absurd h (by decide)
  · intro s id₀ j₀ p hl hst hid hqidx hpool huniq a l now
    have hcand : (id₀, j₀) ∈ claimCandidates s p :=
      mem_claimCandidates.mpr ⟨hpool, hl, hst⟩
    cases hsel : selectFirstMin (claimCandidates s p) with
    | none =>
      rw [selectFirstMin_eq_none] at hsel
      rw [hsel] at hcand
      simp at hcand
    | some c =>
      obtain ⟨jid, job⟩ := c
      have hmem := mem_claimCandidates.mp (selectFirstMin_spec hsel).1
      have hjid : jid = id₀ :=
        huniq jid hmem.1 (jid, job) (lookupJob_mem hmem.2.1) rfl hmem.2.2
      subst hjid
      obtain rfl : job = j₀ := Option.some.inj (hmem.2.1.symm.trans hl)
      constructor
      · rw [claim_job_of_selected hsel]
      · intro a' l' now'
        have hjobs : (claim_job s a p l now).1.jobs =
            updateJob s.jobs jid (claimRec job a l now) := by
          rw [claim_job_of_selected hsel]
        have hpoolpost : poolIds (claim_job s a p l now).1 p = poolIds s p := by
          rw [claim_job_of_selected hsel]
          rfl
        have hcnil : claimCandidates (claim_job s a p l now).1 p = [] := by
          rw [List.eq_nil_iff_forall_not_mem]
          intro x hx
          obtain ⟨jid', job'⟩ := x
          have hm := mem_claimCandidates.mp hx
          by_cases he : jid' = jid
          · subst he
            have h21 := hm.2.1
            rw [hjobs, lookupJob_updateJob_self] at h21
            obtain rfl : job' = claimRec job a l now := (Option.some.inj h21).symm
            have h22 := hm.2.2
            simp [claimRec] at h22
          · have h21 := hm.2.1
            rw [hjobs, lookupJob_updateJob_ne _ _ _ _ he] at h21
            exact he (huniq jid' (hpoolpost ▸ hm.1) (jid', job') (lookupJob_mem h21) rfl
              hm.2.2)
        exact claim_job_of_candidates_nil hcnil

/-- Witness for C1 part (b): in the one-job pool `p`, the first claim obtains
`j1` (now CLAIMED with agent `a1`'s lease) and a second claim returns the
no-job result on the unchanged state. -/
theorem claim_exclusivity_witness :
    (claim_job c1State "a1" "p" 30 5).2 = some (claimRec c1Job "a1" 30 5) ∧
    claim_job (claim_job c1State "a1" "p" 30 5).1 "a2" "p" 30 6 =
      ((claim_job c1State "a1" "p" 30 5).1, none) := by
  have h := claim_exclusivity.2 c1State "j1" c1Job "p" (by decide) (by decide) (by decide)
    (by decide) (by decide) (by decide) "a1" 30 5
  exact ⟨h.1, h.2 "a2" 30 6⟩

/-! ### C2 — claim selection -/

/-- Counterexample to C2 as stated: after job id `X` is re-enqueued from pool
`a` into pool `b`, a claim on pool `a` returns the pool-`b` record — even
though no QUEUED job with `pool_name = "a"` exists, where the claim requires
the no-job result. -/
theorem claim_pool_mismatch_cex :
    (claim_job c2CexState "ag" "a" 30 2).2.map QueuedJob.pool_name = some "b" ∧
    (c2CexState.jobs.all fun pr =>
      !(decide (pr.2.status = JobQueueStatus.queued ∧ pr.2.pool_name = "a"))) = true := by
  decide

/-- C2 (amended): on a state whose pool index is consistent (every id listed
under the pool maps to a record of that pool and every QUEUED record of the
pool is listed — as holds unless a job id was re-enqueued into a different
pool), `claim_job` returns the no-job result exactly when the pool has no
QUEUED job, and otherwise returns a QUEUED job of the pool mutated by
`claimRec` (CLAIMED, `claimed_by_agent = agent`, `claimed_at = now`,
`claimed_lease_expires_at = now + lease`) such that no QUEUED job of the
pool has higher priority, and none with equal priority has an earlier
`queued_at`. -/
theorem claim_priority_fifo_spec :
    ∀ (s : QueueState) (p a : String) (l now : Int),
      keyConsistent s → keysNodup s → poolIndexSound s p → poolIndexComplete s p →
      queuedIndexed s →
      ((∀ pr ∈ s.jobs, ¬(pr.2.status = .queued ∧ pr.2.pool_name = p)) →
          claim_job s a p l now = (s, none)) ∧
      (∀ j', (claim_job s a p l now).2 = some j' →
          ∃ pre : QueuedJob,
            lookupJob s.jobs pre.job_id = some pre ∧ pre.status = .queued ∧
              pre.pool_name = p ∧ j' = claimRec pre a l now ∧
              lookupJob (claim_job s a p l now).1.jobs pre.job_id =
                some (claimRec pre a l now) ∧
              ∀ pr ∈ s.jobs, pr.2.status = .queued → pr.2.pool_name = p →
                priorityOrder pr.2.priority ≤ priorityOrder pre.priority ∧
                (priorityOrder pr.2.priority = priorityOrder pre.priority →
                  pre.queued_at ≤ pr.2.queued_at)) ∧
      ((∃ pr ∈ s.jobs, pr.2.status = .queued ∧ pr.2.pool_name = p) →
          (claim_job s a p l now).2 ≠ none) := by
  intro s p a l now hkey hnd hsound hcomp hqidx
  refine ⟨?_, ?_, ?_⟩
  · intro hno
    have hcnil : claimCandidates s p = [] := by
      rw [List.eq_nil_iff_forall_not_mem]
      intro x hx
      obtain ⟨jid, j⟩ := x
      have hm := mem_claimCandidates.mp hx
      have hjmem := lookupJob_mem hm.2.1
      have hpn : j.pool_name = p := hsound jid hm.1 (jid, j) hjmem rfl
      exact hno (jid, j) hjmem ⟨hm.2.2, hpn⟩
    exact claim_job_of_candidates_nil hcnil
  · intro j' hres
    cases hsel : selectFirstMin (claimCandidates s p) with
    | none =>
      simp [claim_job, hsel] at hres
    | some c =>
      obtain ⟨jid, pre⟩ := c
      rw [claim_job_of_selected hsel] at hres
      simp only [Option.some.injEq] at hres
      subst hres
      have hspec := selectFirstMin_spec hsel
      have hm := mem_claimCandidates.mp hspec.1
      have hjmem := lookupJob_mem hm.2.1
      have hkj : pre.job_id = jid := hkey (jid, pre) hjmem
      have hpn : pre.pool_name = p := hsound jid hm.1 (jid, pre) hjmem rfl
      refine ⟨pre, ?_, hm.2.2, hpn, rfl, ?_, ?_⟩
      · rw [hkj]
        exact hm.2.1
      · have hjobs : (claim_job s a p l now).1.jobs =
            updateJob s.jobs jid (claimRec pre a l now) := by
          rw [claim_job_of_selected hsel]
        rw [hjobs, hkj, lookupJob_updateJob_self]
      · intro pr hpr hprst hprpn
        have hidx : pr.1 ∈ poolIds s p := hcomp pr hpr hprst hprpn
        have hlook : lookupJob s.jobs pr.1 = some pr.2 := mem_lookupJob hnd hpr
        have hc : (pr.1, pr.2) ∈ claimCandidates s p :=
          mem_claimCandidates.mpr ⟨hidx, hlook, hprst⟩
        have hnlt : ¬ claimKeyLtP pr.2 pre := hspec.2 (pr.1, pr.2) hc
        unfold claimKeyLtP at hnlt
        exact ⟨by omega, fun he => by omega⟩
  · intro hex
    obtain ⟨pr, hpr, hprst, hprpn⟩ := hex
    have hidx : pr.1 ∈ poolIds s p := hcomp pr hpr hprst hprpn
    have hlook : lookupJob s.jobs pr.1 = some pr.2 := mem_lookupJob hnd hpr
    have hc : (pr.1, pr.2) ∈ claimCandidates s p :=
      mem_claimCandidates.mpr ⟨hidx, hlook, hprst⟩
    cases hsel : selectFirstMin (claimCandidates s p) with
    | none =>
      rw [selectFirstMin_eq_none] at hsel
      rw [hsel] at hc
      simp at hc
    | some c =>
      obtain ⟨jid, pre⟩ := c
      rw [claim_job_of_selected hsel]
      simp

/-- Witness for C2 at the spec's priority-ordering scenario (LOW, CRITICAL,
NORMAL enqueued in that order): the pool index is consistent, a claim on
pool `p` succeeds — returning the CRITICAL job — and a claim on the empty
pool `z` returns the no-job result with the state unchanged. -/
theorem claim_priority_fifo_witness :
    (claim_job c2State "ag" "p" 30 5).2 ≠ none ∧
    claim_job c2State "ag" "z" 30 5 = (c2State, none) ∧
    (claim_job c2State "ag" "p" 30 5).2.map QueuedJob.job_id = some "C1" := by
  refine ⟨(claim_priority_fifo_spec c2State "p" "ag" 30 5 (by decide) (by decide) (by decide)
      (by decide) (by decide)).2.2 (by decide),
    (claim_priority_fifo_spec c2State "z" "ag" 30 5 (by decide) (by decide) (by decide)
      (by decide) (by decide)).1 (by decide),
    by decide⟩

end HybridCI
